import Mathlib

/-!
# Verification of the tic-tac-toe matchmaking queue (AWS Lambda handlers)

Shallow embedding of the matchmaking core found in `src/aws/lambda/`:
`connection.py`, `joinQueue.py`, `disconnect.py`, `gameOver.py`, and the
queue-snapshot builder in `streamDB.py`.

The DynamoDB table is modelled as a list of participant records in scan
order, keyed by `connectionId` (key uniqueness is carried as a `Nodup`
hypothesis where needed).  The GSI `statusIndex` (partition key `status`,
sort key `joinedAt`) is modelled as a filter followed by a stable sort on
`joinedAt`, which is how DynamoDB serves `Key('status').eq(...)` queries
with `ScanIndexForward=True`.  ISO-8601 timestamps produced by
`datetime.utcnow().isoformat()` are order-isomorphic to their time values,
so `joinedAt` is embedded as a `Nat`.

The shared `utility` layer (`count_active_players`,
`get_marker_for_new_active_user`, `update_user`) is imported by every
handler but its source file is not part of the repository snapshot; those
three operations are modelled from the spec (§4.1, §6) and marked as such
in their doc comments.
-/

namespace TTT

/-- Player marker, `"X"`/`"O"` in the Python code (spec names them A/B). -/
inductive Marker where
  | X : Marker
  | O : Marker
deriving DecidableEq, Repr

/-- Participant status, the strings `'active'` / `'inactive'` in DynamoDB. -/
inductive Status where
  | active : Status
  | inactive : Status
deriving DecidableEq, Repr

/-- One DynamoDB item of the connections table: `connectionId` (primary
key), `sessionId`, `status`, optional `marker` (absent or empty string is
`none`), `joinedAt` timestamp. -/
structure Participant where
  connectionId : String
  sessionId : String
  status : Status
  marker : Option Marker
  joinedAt : Nat
deriving DecidableEq, Repr

/-- The table contents, in scan order. -/
abbrev Store := List Participant

/-- Key uniqueness of the table (DynamoDB primary-key semantics). -/
abbrev NodupIds (s : Store) : Prop := (s.map Participant.connectionId).Nodup

/-- The items with `status = 'active'` (unsorted). -/
def activePlayers (s : Store) : Store :=
  s.filter fun p => decide (p.status = Status.active)

/-- Modelled from the spec: `utility.count_active_players` (the `utility`
layer is not in the repository snapshot) — the number of participants
with `status = active`. -/
def count_active_players (s : Store) : Nat :=
  (activePlayers s).length

/-- Queue-priority order: ascending `joinedAt` (the GSI sort key). -/
def joinLe (p q : Participant) : Prop := p.joinedAt ≤ q.joinedAt

instance : DecidableRel joinLe := fun p q => Nat.decLe p.joinedAt q.joinedAt

instance : IsTotal Participant joinLe := ⟨fun a b => Nat.le_total a.joinedAt b.joinedAt⟩

instance : IsTrans Participant joinLe := ⟨fun _ _ _ => Nat.le_trans⟩

/-- The GSI query `table.query(IndexName="statusIndex",
KeyConditionExpression=Key('status').eq(st), ScanIndexForward=True)`:
the items with the given status, sorted by `joinedAt` ascending. -/
def queryByStatusAsc (st : Status) (s : Store) : Store :=
  List.insertionSort joinLe (s.filter fun p => decide (p.status = st))

/-- `"O" if existing_marker == "X" else "X"` — the marker complement used
by both marker-assignment functions (an absent/empty marker also yields
`"X"`). -/
def flipMarker (m : Option Marker) : Marker :=
  if m = some Marker.X then Marker.O else Marker.X

/-- `get_marker_for_new_active_userr` from `connection.py`: queries the
active players and returns `"X"` when there are none, otherwise the
complement of the first returned active player's marker.  Read-only. -/
def get_marker_for_new_active_userr (s : Store) : Marker :=
  match queryByStatusAsc Status.active s with
  | [] => Marker.X
  | p :: _ => flipMarker p.marker

/-- The defensive `SlotsFull` signal of spec §4.1/§7. -/
inductive MarkerError where
  | SlotsFull : MarkerError
deriving DecidableEq, Repr

/-- Modelled from the spec: `utility.get_marker_for_new_active_user`
(the `utility` layer is not in the repository snapshot).  Spec §4.1
`assignMarker`: returns `A`(= X) if zero active participants exist,
the marker not already in use if exactly one exists, and signals
`SlotsFull` if two are already active.  No side effects. -/
def get_marker_for_new_active_user (s : Store) : Except MarkerError Marker :=
  match queryByStatusAsc Status.active s with
  | [] => Except.ok Marker.X
  | [p] => Except.ok (flipMarker p.marker)
  | _ :: _ :: _ => Except.error MarkerError.SlotsFull

/-- The per-record effect of `utility.update_user`: on the record with
the given `connectionId`, set `status` and `marker`, and set `joinedAt`
when a timestamp is supplied (callers omit it to leave `joinedAt`
untouched). -/
def applyUserUpdate (cid : String) (st : Status) (mk : Option Marker)
    (ts : Option Nat) (p : Participant) : Participant :=
  if p.connectionId = cid then
    { p with status := st, marker := mk, joinedAt := ts.getD p.joinedAt }
  else p

/-- Modelled from the spec: `utility.update_user(connection_id, status,
marker, timestamp?)` (the `utility` layer is not in the repository
snapshot) — a keyed store update (§6 `update(id, fields)`), a no-op when
no record has the key. -/
def update_user (cid : String) (st : Status) (mk : Option Marker)
    (ts : Option Nat) (s : Store) : Store :=
  s.map (applyUserUpdate cid st mk ts)

/-- `table.get_item(Key={'connectionId': cid})`. -/
def lookupUser (cid : String) (s : Store) : Option Participant :=
  s.find? fun p => decide (p.connectionId = cid)

/-- `table.delete_item(Key={'connectionId': cid})`. -/
def deleteUser (cid : String) (s : Store) : Store :=
  s.filter fun p => !decide (p.connectionId = cid)

/-! ## joinQueue.py -/

/-- The `requestContext` payload `connection.py` forwards to the
`joinQueue` lambda; `marker` is the value computed at admission time. -/
structure JoinQueueEvent where
  connectionId : String
  sessionId : String
  domainName : String
  stage : String
  marker : Option Marker
deriving DecidableEq, Repr

/-- Outcome reported by the `joinQueue` handler's response body. -/
inductive JoinResult where
  | activeWith : Marker → JoinResult
  | queued : JoinResult
  | errored : JoinResult
deriving DecidableEq, Repr

/-- `handler` of `joinQueue.py`: count the active players; if fewer than
2, assign a marker via `utility.get_marker_for_new_active_user` and set
the user active; otherwise set the user inactive with a fresh `joinedAt`
(`now`).  A `ClientError` raised by the marker lookup aborts before any
write (caught as a 500 response). -/
def joinQueue_handler (e : JoinQueueEvent) (now : Nat) (s : Store) :
    Store × JoinResult :=
  if count_active_players s < 2 then
    match get_marker_for_new_active_user s with
    | Except.ok m =>
        (update_user e.connectionId Status.active (some m) none s,
         JoinResult.activeWith m)
    | Except.error _ => (s, JoinResult.errored)
  else
    (update_user e.connectionId Status.inactive none (some now) s,
     JoinResult.queued)

/-! ## disconnect.py / gameOver.py -/

/-- One promotion step of `fill_active_slots`: recompute the marker from
the current active set, then set the user active with it.  A raised
`SlotsFull` is caught by the surrounding `except ClientError` and skips
the write. -/
def promote_user (cid : String) (s : Store) : Store :=
  match get_marker_for_new_active_user s with
  | Except.ok m => update_user cid Status.active (some m) none s
  | Except.error _ => s

/-- `fill_active_slots` as it runs in `gameOver.py`, which imports `Key`
from `boto3.dynamodb.conditions`: if fewer than 2 players are active,
take the first `needed = 2 - active_count` inactive users in ascending
`joinedAt` order and promote each in turn; a `ClientError` while
promoting one user (modelled by the failure oracle `fail`) is logged and
does not stop the loop.  `disconnect.py` contains a textually identical
copy, but that module never imports `Key`, so its copy behaves
differently and is embedded separately as
`fill_active_slots_disconnect`. -/
def fill_active_slots (fail : String → Bool) (s : Store) : Store :=
  let active_count := count_active_players s
  if 2 ≤ active_count then s
  else
    let needed := 2 - active_count
    let inactive_users := (queryByStatusAsc Status.inactive s).take needed
    inactive_users.foldl
      (fun st u =>
        if fail u.connectionId then st else promote_user u.connectionId st)
      s

/-- The `NameError` raised by `disconnect.py`'s `fill_active_slots`: the
function evaluates `Key('status').eq('inactive')` for its GSI query, but
`disconnect.py` — unlike `connection.py`, `gameOver.py` and
`updateDB.py` — never imports `Key`. -/
inductive PyError where
  | nameErrorKey : PyError
deriving DecidableEq, Repr

/-- `fill_active_slots` as it runs in `disconnect.py`: the early return
(already 2 active) happens before the query and completes; on every
other path evaluating the unimported name `Key` in the inactive-users
query raises `NameError` before any promotion, so no store write ever
occurs in this copy. -/
def fill_active_slots_disconnect (s : Store) : Except PyError Store :=
  let active_count := count_active_players s
  if 2 ≤ active_count then Except.ok s
  else Except.error PyError.nameErrorKey

/-- Outcome of the `disconnect` handler: the no-record and success paths
answer HTTP 200; `uncaughtError` is the `NameError` escaping the
handler — its `except` clause catches only `ClientError`, so the
invocation fails after the delete. -/
inductive DisconnectResult where
  | noRecord : DisconnectResult
  | disconnected : DisconnectResult
  | uncaughtError : DisconnectResult
deriving DecidableEq, Repr

/-- `handler` of `disconnect.py`: read the user's record; if absent,
succeed without touching the store; otherwise delete the record and, only
when the departed user was active, run its `fill_active_slots`.  Because
that copy raises `NameError` exactly when a seat is free
(`fill_active_slots_disconnect`), the active-departure path with fewer
than 2 remaining active players fails after the delete with no
promotion. -/
def disconnect_handler (cid : String) (s : Store) :
    Store × DisconnectResult :=
  match lookupUser cid s with
  | none => (s, DisconnectResult.noRecord)
  | some u =>
      let s1 := deleteUser cid s
      if u.status = Status.active then
        match fill_active_slots_disconnect s1 with
        | Except.ok s2 => (s2, DisconnectResult.disconnected)
        | Except.error _ => (s1, DisconnectResult.uncaughtError)
      else
        (s1, DisconnectResult.disconnected)

/-- Outcome of the `gameOver` handler: HTTP 400 `Missing loserId
parameter`, or HTTP 200 `gameOver processed`. -/
inductive GameOverResult where
  | missingLoser : GameOverResult
  | processed : GameOverResult
deriving DecidableEq, Repr

/-- `handler` of `gameOver.py`: `body.get('loserId')` absent or empty
(falsy) yields a 400 with no store access; otherwise mark the loser
inactive with an empty marker and `joinedAt = now`, then run
`fill_active_slots`. -/
def gameOver_handler (loserId : Option String) (now : Nat)
    (fail : String → Bool) (s : Store) : Store × GameOverResult :=
  match loserId with
  | none => (s, GameOverResult.missingLoser)
  | some lid =>
      if lid = "" then (s, GameOverResult.missingLoser)
      else
        let s1 := update_user lid Status.inactive none (some now) s
        (fill_active_slots fail s1, GameOverResult.processed)

/-! ## connection.py -/

/-- Outcome of the `connection` handler: on success it carries the marker
computed by `get_marker_for_new_active_userr` and forwarded in the
`joinQueue` invocation payload; the conditional `put_item` rejecting an
existing `connectionId` raises `ClientError` (HTTP 500). -/
inductive ConnResult where
  | connected : Marker → ConnResult
  | clientError : ConnResult
deriving DecidableEq, Repr

/-- `handler` of `connection.py`: `put_item` with
`ConditionExpression="attribute_not_exists(connectionId)"` creates the
record `{connectionId, sessionId, status: 'inactive', joinedAt}` only
when the key is absent, then computes the payload marker from the updated
table.  When the key exists, the conditional write fails and nothing is
stored. -/
def connection_handler (cid sid : String) (now : Nat) (s : Store) :
    Store × ConnResult :=
  if s.any fun p => decide (p.connectionId = cid) then
    (s, ConnResult.clientError)
  else
    let s1 := s ++ [⟨cid, sid, Status.inactive, none, now⟩]
    (s1, ConnResult.connected (get_marker_for_new_active_userr s1))

/-! ## Event sequences (admit / queue-request) -/

/-- The two event kinds of spec §8's first invariant property: an
admission (`$connect` → `connection.py`) and an explicit queue request
(`joinQueue.py`), each carrying the wall-clock time of the event. -/
inductive Event where
  | connect : String → String → Nat → Event
  | queueReq : String → Nat → Event
deriving DecidableEq, Repr

/-- A `joinQueue` invocation payload for `cid` (the fields other than
`connectionId` are not read by the handler). -/
def mkJoinEvent (cid : String) : JoinQueueEvent :=
  ⟨cid, "", "", "", none⟩

/-- The store transition of one event. -/
def stepEvent (s : Store) (e : Event) : Store :=
  match e with
  | Event.connect cid sid t => (connection_handler cid sid t s).1
  | Event.queueReq cid t => (joinQueue_handler (mkJoinEvent cid) t s).1

/-- The store after running a sequence of events from the empty table. -/
def runEvents (es : List Event) : Store :=
  es.foldl stepEvent []

/-! ## streamDB.py -/

/-- One scanned item as seen by `_get_live_queue_data` in `streamDB.py`.
`joinedAt` here is the *parse outcome* of the stored string under
`datetime.fromisoformat(joined_str.replace("Z", ""))`: `none` when the
attribute is absent, empty, or not ISO-8601-parseable, and `some t` when
it parses, with times encoded as `Nat` so that `0` is `datetime.min`
(the time of the parseable string `"0001-01-01T00:00:00"`). -/
structure QueueItem where
  connectionId : String
  joinedAt : Option Nat
deriving DecidableEq, Repr

/-- `parse_joined_at` of `streamDB.py`: the sort key of one item — its
parsed timestamp, or `datetime.min` (encoded `0`) when parsing fails. -/
def parse_joined_at (it : QueueItem) : Nat :=
  it.joinedAt.getD 0

/-- The comparison `sorted` uses on the items' keys. -/
def liveQueueLe (a b : QueueItem) : Prop :=
  parse_joined_at a ≤ parse_joined_at b

instance : DecidableRel liveQueueLe :=
  fun a b => Nat.decLe (parse_joined_at a) (parse_joined_at b)

instance : IsTotal QueueItem liveQueueLe :=
  ⟨fun a b => Nat.le_total (parse_joined_at a) (parse_joined_at b)⟩

instance : IsTrans QueueItem liveQueueLe := ⟨fun _ _ _ => Nat.le_trans⟩

/-- `_get_live_queue_data` of `streamDB.py`: scan the whole table and
return it sorted by `parse_joined_at` ascending (Python `sorted` is a
stable sort by key, embedded as a stable insertion sort). -/
def get_live_queue_data (items : List QueueItem) : List QueueItem :=
  List.insertionSort liveQueueLe items

/-! ## Basic lemmas about the store operations -/

theorem mem_activePlayers {q : Participant} {s : Store} :
    q ∈ activePlayers s ↔ q ∈ s ∧ q.status = Status.active := by
  simp [activePlayers, List.mem_filter]

theorem queryByStatusAsc_perm (st : Status) (s : Store) :
    List.Perm (queryByStatusAsc st s) (s.filter fun p => decide (p.status = st)) :=
  List.perm_insertionSort joinLe _

theorem queryActive_perm_activePlayers (s : Store) :
    List.Perm (queryByStatusAsc Status.active s) (activePlayers s) :=
  queryByStatusAsc_perm Status.active s

theorem mem_queryByStatusAsc {q : Participant} {st : Status} {s : Store} :
    q ∈ queryByStatusAsc st s ↔ q ∈ s ∧ q.status = st := by
  rw [(queryByStatusAsc_perm st s).mem_iff]
  simp [List.mem_filter]

theorem length_queryActive (s : Store) :
    (queryByStatusAsc Status.active s).length = count_active_players s :=
  (queryActive_perm_activePlayers s).length_eq

theorem sorted_queryByStatusAsc (st : Status) (s : Store) :
    (queryByStatusAsc st s).Sorted joinLe :=
  List.sorted_insertionSort joinLe _

theorem some_flipMarker_ne (om : Option Marker) : some (flipMarker om) ≠ om := by
  rcases om with _ | m
  · simp
  · cases m <;> simp [flipMarker]

@[simp] theorem applyUserUpdate_connectionId (cid : String) (st : Status)
    (mk : Option Marker) (ts : Option Nat) (p : Participant) :
    (applyUserUpdate cid st mk ts p).connectionId = p.connectionId := by
  unfold applyUserUpdate
  split <;> rfl

theorem applyUserUpdate_of_ne {cid : String} {p : Participant} (st : Status)
    (mk : Option Marker) (ts : Option Nat) (h : p.connectionId ≠ cid) :
    applyUserUpdate cid st mk ts p = p := by
  simp [applyUserUpdate, h]

theorem applyUserUpdate_of_eq {cid : String} {p : Participant} (st : Status)
    (mk : Option Marker) (ts : Option Nat) (h : p.connectionId = cid) :
    applyUserUpdate cid st mk ts p =
      { p with status := st, marker := mk, joinedAt := ts.getD p.joinedAt } := by
  simp [applyUserUpdate, h]

theorem map_connectionId_update (cid : String) (st : Status) (mk : Option Marker)
    (ts : Option Nat) (s : Store) :
    (update_user cid st mk ts s).map Participant.connectionId =
      s.map Participant.connectionId := by
  unfold update_user
  rw [List.map_map]
  exact List.map_congr_left fun p _ => applyUserUpdate_connectionId cid st mk ts p

theorem NodupIds_update {s : Store} (cid : String) (st : Status) (mk : Option Marker)
    (ts : Option Nat) (h : NodupIds s) : NodupIds (update_user cid st mk ts s) := by
  unfold NodupIds
  rw [map_connectionId_update]
  exact h

theorem lookupUser_update (cid' cid : String) (st : Status) (mk : Option Marker)
    (ts : Option Nat) (s : Store) :
    lookupUser cid' (update_user cid st mk ts s) =
      (lookupUser cid' s).map (applyUserUpdate cid st mk ts) := by
  unfold lookupUser update_user
  induction s with
  | nil => rfl
  | cons p tl ih =>
      by_cases h : p.connectionId = cid'
      · rw [List.map_cons, List.find?_cons_of_pos _ (by simp [h]),
          List.find?_cons_of_pos _ (by simp [h])]
        rfl
      · rw [List.map_cons, List.find?_cons_of_neg _ (by simp [h]),
          List.find?_cons_of_neg _ (by simp [h])]
        exact ih

theorem lookupUser_of_mem {s : Store} {p : Participant} (hnd : NodupIds s)
    (hp : p ∈ s) : lookupUser p.connectionId s = some p := by
  unfold lookupUser
  induction s with
  | nil => cases hp
  | cons a tl ih =>
      unfold NodupIds at hnd
      rw [List.map_cons, List.nodup_cons] at hnd
      rcases List.mem_cons.mp hp with rfl | hmem
      · exact List.find?_cons_of_pos _ (by simp)
      · have hne : a.connectionId ≠ p.connectionId := by
          intro hcontra
          exact hnd.1 (hcontra ▸ List.mem_map_of_mem Participant.connectionId hmem)
        rw [List.find?_cons_of_neg _ (by simp [hne])]
        exact ih hnd.2 hmem

theorem countP_or_add_countP_and (a b : Participant → Bool) (l : Store) :
    l.countP (fun x => a x || b x) + l.countP (fun x => a x && b x) =
      l.countP a + l.countP b := by
  induction l with
  | nil => rfl
  | cons x tl ih =>
      by_cases ha : a x <;> by_cases hb : b x <;>
        simp [List.countP_cons, ha, hb] <;> omega

theorem filter_cid_of_not_mem {s : Store} {cid : String}
    (h : cid ∉ s.map Participant.connectionId) :
    s.filter (fun p => decide (p.connectionId = cid)) = [] := by
  rw [List.filter_eq_nil_iff]
  intro p hp
  simp only [decide_eq_true_eq]
  intro hcid
  exact h (hcid ▸ List.mem_map_of_mem Participant.connectionId hp)

theorem filter_cid_of_mem {s : Store} {p : Participant} (hnd : NodupIds s)
    (hp : p ∈ s) :
    s.filter (fun q => decide (q.connectionId = p.connectionId)) = [p] := by
  induction s with
  | nil => cases hp
  | cons a tl ih =>
      unfold NodupIds at hnd
      rw [List.map_cons, List.nodup_cons] at hnd
      rcases List.mem_cons.mp hp with rfl | hmem
      · rw [List.filter_cons_of_pos (by simp), filter_cid_of_not_mem hnd.1]
      · have hne : a.connectionId ≠ p.connectionId := by
          intro hcontra
          exact hnd.1 (hcontra ▸ List.mem_map_of_mem Participant.connectionId hmem)
        rw [List.filter_cons_of_neg (by simp [hne])]
        exact ih hnd.2 hmem

theorem length_filter_cid_le_one {s : Store} (hnd : NodupIds s) (cid : String) :
    (s.filter fun p => decide (p.connectionId = cid)).length ≤ 1 := by
  rcases h : s.find? (fun p => decide (p.connectionId = cid)) with _ | p
  · rw [List.find?_eq_none] at h
    rw [List.filter_eq_nil_iff.mpr h]
    exact Nat.zero_le 1
  · have hp := List.find?_some h
    have hmem := List.mem_of_find?_eq_some h
    simp only [decide_eq_true_eq] at hp
    have hfix := filter_cid_of_mem hnd hmem
    rw [hp] at hfix
    rw [hfix]
    exact Nat.le_refl 1

theorem NodupIds_filter (q : Participant → Bool) {s : Store} (hnd : NodupIds s) :
    NodupIds (s.filter q) :=
  ((List.filter_sublist s).map Participant.connectionId).nodup hnd

/-! ## The active set after an `update_user` write -/

theorem activePlayers_update_inactive (cid : String) (mk : Option Marker)
    (ts : Option Nat) (s : Store) :
    activePlayers (update_user cid Status.inactive mk ts s) =
      s.filter fun p =>
        !decide (p.connectionId = cid) && decide (p.status = Status.active) := by
  unfold activePlayers update_user
  rw [List.filter_map]
  have hpred : ((fun p : Participant => decide (p.status = Status.active)) ∘
      applyUserUpdate cid Status.inactive mk ts) = fun p =>
        !decide (p.connectionId = cid) && decide (p.status = Status.active) := by
    funext p
    by_cases h : p.connectionId = cid
    · simp [Function.comp, applyUserUpdate_of_eq _ _ _ h, h]
    · simp [Function.comp, applyUserUpdate_of_ne _ _ _ h, h]
  rw [hpred]
  have hid : ∀ p ∈ s.filter (fun p =>
      !decide (p.connectionId = cid) && decide (p.status = Status.active)),
      applyUserUpdate cid Status.inactive mk ts p = p := by
    intro p hp
    rw [List.mem_filter] at hp
    have h2 := hp.2
    simp only [Bool.and_eq_true, Bool.not_eq_true', decide_eq_false_iff_not] at h2
    exact applyUserUpdate_of_ne _ _ _ h2.1
  rw [List.map_congr_left hid]
  exact List.map_id' _

theorem activePlayers_update_active (cid : String) (mk : Option Marker)
    (ts : Option Nat) (s : Store) :
    activePlayers (update_user cid Status.active mk ts s) =
      (s.filter fun p =>
        decide (p.connectionId = cid) || decide (p.status = Status.active)).map
        (applyUserUpdate cid Status.active mk ts) := by
  unfold activePlayers update_user
  rw [List.filter_map]
  have hpred : ((fun p : Participant => decide (p.status = Status.active)) ∘
      applyUserUpdate cid Status.active mk ts) = fun p =>
        decide (p.connectionId = cid) || decide (p.status = Status.active) := by
    funext p
    by_cases h : p.connectionId = cid
    · simp [Function.comp, applyUserUpdate_of_eq _ _ _ h, h]
    · simp [Function.comp, applyUserUpdate_of_ne _ _ _ h, h]
  rw [hpred]

theorem count_update_inactive_le (cid : String) (mk : Option Marker)
    (ts : Option Nat) (s : Store) :
    count_active_players (update_user cid Status.inactive mk ts s) ≤
      count_active_players s := by
  unfold count_active_players
  rw [activePlayers_update_inactive]
  unfold activePlayers
  rw [← List.countP_eq_length_filter, ← List.countP_eq_length_filter]
  refine List.countP_mono_left ?_
  intro p _ h
  simp only [Bool.and_eq_true] at h
  exact h.2

theorem count_update_active_le {s : Store} (hnd : NodupIds s) (cid : String)
    (mk : Option Marker) (ts : Option Nat) :
    count_active_players (update_user cid Status.active mk ts s) ≤
      count_active_players s + 1 := by
  unfold count_active_players
  rw [activePlayers_update_active, List.length_map]
  unfold activePlayers
  rw [← List.countP_eq_length_filter, ← List.countP_eq_length_filter]
  have hie := countP_or_add_countP_and (fun p => decide (p.connectionId = cid))
      (fun p => decide (p.status = Status.active)) s
  have h1 : s.countP (fun p => decide (p.connectionId = cid)) ≤ 1 := by
    rw [List.countP_eq_length_filter]
    exact length_filter_cid_le_one hnd cid
  omega

/-! ## Marker assignment under a non-full active set -/

theorem assignMarker_lt_two {s : Store} (h : count_active_players s < 2) :
    ∃ m, get_marker_for_new_active_user s = Except.ok m ∧
      ∀ q ∈ s, q.status = Status.active → some m ≠ q.marker := by
  have hlen := length_queryActive s
  unfold get_marker_for_new_active_user
  rcases hc : count_active_players s with _ | n
  · have hnil : queryByStatusAsc Status.active s = [] := by
      rw [← List.length_eq_zero, hlen, hc]
    rw [hnil]
    refine ⟨Marker.X, rfl, ?_⟩
    intro q hq hact
    have hmem : q ∈ activePlayers s := mem_activePlayers.mpr ⟨hq, hact⟩
    have hzero : activePlayers s = [] := by
      rw [← List.length_eq_zero]
      exact hc
    rw [hzero] at hmem
    cases hmem
  · have h2 : n + 1 < 2 := hc ▸ h
    have hn : n = 0 := by omega
    subst hn
    have h1 : (queryByStatusAsc Status.active s).length = 1 := by rw [hlen, hc]
    rcases List.length_eq_one.mp h1 with ⟨a, ha⟩
    rw [ha]
    refine ⟨flipMarker a.marker, rfl, ?_⟩
    intro q hq hact
    have hmemq : q ∈ queryByStatusAsc Status.active s :=
      mem_queryByStatusAsc.mpr ⟨hq, hact⟩
    rw [ha, List.mem_singleton] at hmemq
    subst hmemq
    exact some_flipMarker_ne q.marker

/-! ## The matchmaking invariant (spec §3, I1–I4) -/

/-- The state invariant: unique keys, at most two active participants,
every active participant holds a marker, and two active participants with
different keys hold different markers. -/
def Inv (s : Store) : Prop :=
  NodupIds s ∧
  count_active_players s ≤ 2 ∧
  (∀ p ∈ s, p.status = Status.active → p.marker.isSome = true) ∧
  (∀ p ∈ s, ∀ q ∈ s, p.connectionId ≠ q.connectionId →
    p.status = Status.active → q.status = Status.active → p.marker ≠ q.marker)

theorem Inv_nil : Inv [] := by
  refine ⟨List.nodup_nil, ?_, ?_, ?_⟩
  · simp [count_active_players, activePlayers]
  · intro p hp
    cases hp
  · intro p hp
    cases hp

theorem Inv_joinQueue (e : JoinQueueEvent) (now : Nat) {s : Store}
    (hInv : Inv s) : Inv (joinQueue_handler e now s).1 := by
  obtain ⟨hnd, hcount, hsome, hdist⟩ := hInv
  unfold joinQueue_handler
  by_cases hlt : count_active_players s < 2
  · rcases assignMarker_lt_two hlt with ⟨m, hm, hfresh⟩
    rw [if_pos hlt, hm]
    show Inv (update_user e.connectionId Status.active (some m) none s)
    refine ⟨NodupIds_update _ _ _ _ hnd, ?_, ?_, ?_⟩
    · have hb := count_update_active_le hnd e.connectionId (some m) none
      omega
    · intro p hp hact
      simp only [update_user, List.mem_map] at hp
      obtain ⟨p0, _, rfl⟩ := hp
      by_cases h : p0.connectionId = e.connectionId
      · rw [applyUserUpdate_of_eq _ _ _ h]
        rfl
      · rw [applyUserUpdate_of_ne _ _ _ h] at hact ⊢
        exact hsome p0 (by assumption) hact
    · intro p hp q hq hneq hpact hqact
      simp only [update_user, List.mem_map] at hp hq
      obtain ⟨p0, hp0, rfl⟩ := hp
      obtain ⟨q0, hq0, rfl⟩ := hq
      rw [applyUserUpdate_connectionId, applyUserUpdate_connectionId] at hneq
      by_cases h1 : p0.connectionId = e.connectionId <;>
        by_cases h2 : q0.connectionId = e.connectionId
      · exact absurd (h1.trans h2.symm) hneq
      · rw [applyUserUpdate_of_eq _ _ _ h1]
        rw [applyUserUpdate_of_ne _ _ _ h2] at hqact ⊢
        exact hfresh q0 hq0 hqact
      · rw [applyUserUpdate_of_eq _ _ _ h2]
        rw [applyUserUpdate_of_ne _ _ _ h1] at hpact ⊢
        exact (hfresh p0 hp0 hpact).symm
      · rw [applyUserUpdate_of_ne _ _ _ h1] at hpact ⊢
        rw [applyUserUpdate_of_ne _ _ _ h2] at hqact ⊢
        exact hdist p0 hp0 q0 hq0 hneq hpact hqact
  · rw [if_neg hlt]
    show Inv (update_user e.connectionId Status.inactive none (some now) s)
    refine ⟨NodupIds_update _ _ _ _ hnd, ?_, ?_, ?_⟩
    · have hb := count_update_inactive_le e.connectionId none (some now) s
      omega
    · intro p hp hact
      simp only [update_user, List.mem_map] at hp
      obtain ⟨p0, hp0, rfl⟩ := hp
      by_cases h : p0.connectionId = e.connectionId
      · rw [applyUserUpdate_of_eq _ _ _ h] at hact
        cases hact
      · rw [applyUserUpdate_of_ne _ _ _ h] at hact ⊢
        exact hsome p0 hp0 hact
    · intro p hp q hq hneq hpact hqact
      simp only [update_user, List.mem_map] at hp hq
      obtain ⟨p0, hp0, rfl⟩ := hp
      obtain ⟨q0, hq0, rfl⟩ := hq
      rw [applyUserUpdate_connectionId, applyUserUpdate_connectionId] at hneq
      by_cases h1 : p0.connectionId = e.connectionId
      · rw [applyUserUpdate_of_eq _ _ _ h1] at hpact
        cases hpact
      by_cases h2 : q0.connectionId = e.connectionId
      · rw [applyUserUpdate_of_eq _ _ _ h2] at hqact
        cases hqact
      rw [applyUserUpdate_of_ne _ _ _ h1] at hpact ⊢
      rw [applyUserUpdate_of_ne _ _ _ h2] at hqact ⊢
      exact hdist p0 hp0 q0 hq0 hneq hpact hqact

theorem Inv_connection (cid sid : String) (now : Nat) {s : Store}
    (hInv : Inv s) : Inv (connection_handler cid sid now s).1 := by
  obtain ⟨hnd, hcount, hsome, hdist⟩ := hInv
  unfold connection_handler
  by_cases hex : (s.any fun p => decide (p.connectionId = cid)) = true
  · rw [if_pos hex]
    exact ⟨hnd, hcount, hsome, hdist⟩
  · rw [if_neg hex]
    show Inv (s ++ [⟨cid, sid, Status.inactive, none, now⟩])
    simp only [List.any_eq_true, decide_eq_true_eq, not_exists, not_and] at hex
    have hnotin : cid ∉ s.map Participant.connectionId := by
      intro hmem
      rcases List.mem_map.mp hmem with ⟨p, hp, hcid⟩
      exact hex p hp hcid
    have hact : activePlayers (s ++ [⟨cid, sid, Status.inactive, none, now⟩]) =
        activePlayers s := by
      unfold activePlayers
      rw [List.filter_append]
      simp
    refine ⟨?_, ?_, ?_, ?_⟩
    · unfold NodupIds
      rw [List.map_append, List.map_cons, List.map_nil]
      exact List.Nodup.append hnd (List.nodup_singleton cid)
        (by simp [List.Disjoint]; intro a ha hcid; exact hex a ha hcid)
    · unfold count_active_players
      rw [hact]
      exact hcount
    · intro p hp hpact
      rcases List.mem_append.mp hp with hmem | hmem
      · exact hsome p hmem hpact
      · rw [List.mem_singleton] at hmem
        subst hmem
        cases hpact
    · intro p hp q hq hneq hpact hqact
      rcases List.mem_append.mp hp with hpmem | hpmem
      · rcases List.mem_append.mp hq with hqmem | hqmem
        · exact hdist p hpmem q hqmem hneq hpact hqact
        · rw [List.mem_singleton] at hqmem
          subst hqmem
          cases hqact
      · rw [List.mem_singleton] at hpmem
        subst hpmem
        cases hpact

theorem Inv_stepEvent (e : Event) {s : Store} (h : Inv s) : Inv (stepEvent s e) := by
  cases e with
  | connect cid sid t => exact Inv_connection cid sid t h
  | queueReq cid t => exact Inv_joinQueue (mkJoinEvent cid) t h

theorem Inv_foldl (es : List Event) : ∀ s : Store, Inv s → Inv (es.foldl stepEvent s) := by
  induction es with
  | nil => exact fun s h => h
  | cons e tl ih => exact fun s h => ih _ (Inv_stepEvent e h)

theorem Inv_runEvents (es : List Event) : Inv (runEvents es) :=
  Inv_foldl es [] Inv_nil

theorem two_active_markers {s : Store} (hInv : Inv s)
    (h2 : count_active_players s = 2) :
    ∃ p q, activePlayers s = [p, q] ∧
      ((p.marker = some Marker.X ∧ q.marker = some Marker.O) ∨
       (p.marker = some Marker.O ∧ q.marker = some Marker.X)) := by
  obtain ⟨hnd, _, hsome, hdist⟩ := hInv
  rcases List.length_eq_two.mp h2 with ⟨p, q, hpq⟩
  have hp : p ∈ activePlayers s := by rw [hpq]; simp
  have hq : q ∈ activePlayers s := by rw [hpq]; simp
  rw [mem_activePlayers] at hp hq
  have hndf : NodupIds (activePlayers s) := NodupIds_filter _ hnd
  rw [hpq] at hndf
  unfold NodupIds at hndf
  simp only [List.map_cons, List.map_nil, List.nodup_cons, List.mem_singleton,
    List.mem_nil_iff, List.not_mem_nil, List.nodup_nil, and_true] at hndf
  have hcidne : p.connectionId ≠ q.connectionId := by
    intro hcontra
    exact hndf.1 (by simp [hcontra])
  rcases Option.isSome_iff_exists.mp (hsome p hp.1 hp.2) with ⟨mp, hmp⟩
  rcases Option.isSome_iff_exists.mp (hsome q hq.1 hq.2) with ⟨mq, hmq⟩
  have hne := hdist p hp.1 q hq.1 hcidne hp.2 hq.2
  rw [hmp, hmq] at hne
  refine ⟨p, q, hpq, ?_⟩
  cases mp <;> cases mq
  · exact absurd rfl hne
  · exact Or.inl ⟨hmp, hmq⟩
  · exact Or.inr ⟨hmp, hmq⟩
  · exact absurd rfl hne

theorem one_active_marker {s : Store} (hInv : Inv s)
    (h1 : count_active_players s = 1) :
    ∃ p, activePlayers s = [p] ∧
      (p.marker = some Marker.X ∨ p.marker = some Marker.O) := by
  obtain ⟨_, _, hsome, _⟩ := hInv
  rcases List.length_eq_one.mp h1 with ⟨p, hp⟩
  have hmem : p ∈ activePlayers s := by rw [hp]; simp
  rw [mem_activePlayers] at hmem
  rcases Option.isSome_iff_exists.mp (hsome p hmem.1 hmem.2) with ⟨m, hm⟩
  refine ⟨p, hp, ?_⟩
  cases m
  · exact Or.inl hm
  · exact Or.inr hm

/-- C1: after any sequence of admit (`connection.py`) and queue-request
(`joinQueue.py`) events starting from the empty table, at most 2
participants are active; when exactly 2 are active their markers are one
`X` and one `O`; when exactly 1 is active its marker is `X` or `O`. -/
theorem C1_admission_invariants (es : List Event) :
    count_active_players (runEvents es) ≤ 2 ∧
    (count_active_players (runEvents es) = 2 →
      ∃ p q, activePlayers (runEvents es) = [p, q] ∧
        ((p.marker = some Marker.X ∧ q.marker = some Marker.O) ∨
         (p.marker = some Marker.O ∧ q.marker = some Marker.X))) ∧
    (count_active_players (runEvents es) = 1 →
      ∃ p, activePlayers (runEvents es) = [p] ∧
        (p.marker = some Marker.X ∨ p.marker = some Marker.O)) := by
  have hInv := Inv_runEvents es
  exact ⟨hInv.2.1, fun h2 => two_active_markers hInv h2,
    fun h1 => one_active_marker hInv h1⟩

/-- Witness for C1: admitting and queueing two participants yields
exactly 2 active players, and the theorem then produces their distinct
markers. -/
theorem C1_admission_invariants_witness :
    count_active_players (runEvents [Event.connect "c1" "s1" 0,
      Event.queueReq "c1" 1, Event.connect "c2" "s2" 2,
      Event.queueReq "c2" 3]) = 2 ∧
    ∃ p q, activePlayers (runEvents [Event.connect "c1" "s1" 0,
      Event.queueReq "c1" 1, Event.connect "c2" "s2" 2,
      Event.queueReq "c2" 3]) = [p, q] ∧
      ((p.marker = some Marker.X ∧ q.marker = some Marker.O) ∨
       (p.marker = some Marker.O ∧ q.marker = some Marker.X)) :=
  ⟨by decide, (C1_admission_invariants [Event.connect "c1" "s1" 0,
      Event.queueReq "c1" 1, Event.connect "c2" "s2" 2,
      Event.queueReq "c2" 3]).2.1 (by decide)⟩

/-- C2 counterexample: with two active participants (markers X and O) the
source function `get_marker_for_new_active_userr` does not signal
`SlotsFull` — it still returns a marker, the complement of the first
active player's, refuting "signals SlotsFull (does not return a marker)
when two participants are already active". -/
theorem C2_two_active_returns_marker :
    count_active_players
      [⟨"a", "sa", Status.active, some Marker.X, 0⟩,
       ⟨"b", "sb", Status.active, some Marker.O, 1⟩] = 2 ∧
    get_marker_for_new_active_userr
      [⟨"a", "sa", Status.active, some Marker.X, 0⟩,
       ⟨"b", "sb", Status.active, some Marker.O, 1⟩] = Marker.O := by
  decide

/-- C2 (amended): `get_marker_for_new_active_userr` returns `X` when no
participant is active; when exactly one is active it returns the marker
not in use (`O` for an active `X`, otherwise `X`); when the active query
is non-empty — including the two-active case — it returns the complement
of the first queried active participant's marker instead of signalling
`SlotsFull`.  It only queries the store (no side effects, which the
embedding reflects by its type `Store → Marker`). -/
theorem C2_marker_assignment (s : Store) :
    (count_active_players s = 0 → get_marker_for_new_active_userr s = Marker.X) ∧
    (∀ a, activePlayers s = [a] →
      (a.marker = some Marker.X → get_marker_for_new_active_userr s = Marker.O) ∧
      (a.marker ≠ some Marker.X → get_marker_for_new_active_userr s = Marker.X)) ∧
    (∀ a t, queryByStatusAsc Status.active s = a :: t →
      get_marker_for_new_active_userr s = flipMarker a.marker) := by
  refine ⟨?_, ?_, ?_⟩
  · intro h0
    have hnil : queryByStatusAsc Status.active s = [] := by
      rw [← List.length_eq_zero, length_queryActive, h0]
    unfold get_marker_for_new_active_userr
    rw [hnil]
  · intro a ha
    have hq : queryByStatusAsc Status.active s = [a] :=
      List.perm_singleton.mp (ha ▸ queryActive_perm_activePlayers s)
    unfold get_marker_for_new_active_userr
    rw [hq]
    constructor
    · intro hx
      simp [flipMarker, hx]
    · intro hx
      simp [flipMarker, hx]
  · intro a t ha
    unfold get_marker_for_new_active_userr
    rw [ha]

/-- Witness for C2 (amended), instantiating all three cases: the empty
store yields `X`; one active `X` yields `O`; with two active players the
first queried (earliest `joinedAt`) has marker `X` and the result is its
complement `O`. -/
theorem C2_marker_assignment_witness :
    (count_active_players ([] : Store) = 0 ∧
      get_marker_for_new_active_userr ([] : Store) = Marker.X) ∧
    (activePlayers [⟨"a", "sa", Status.active, some Marker.X, 0⟩] =
        [⟨"a", "sa", Status.active, some Marker.X, 0⟩] ∧
      get_marker_for_new_active_userr
        [⟨"a", "sa", Status.active, some Marker.X, 0⟩] = Marker.O) ∧
    (queryByStatusAsc Status.active
        [⟨"a", "sa", Status.active, some Marker.X, 0⟩,
         ⟨"b", "sb", Status.active, some Marker.O, 1⟩] =
        ⟨"a", "sa", Status.active, some Marker.X, 0⟩ ::
          [⟨"b", "sb", Status.active, some Marker.O, 1⟩] ∧
      get_marker_for_new_active_userr
        [⟨"a", "sa", Status.active, some Marker.X, 0⟩,
         ⟨"b", "sb", Status.active, some Marker.O, 1⟩] =
        flipMarker (some Marker.X)) :=
  ⟨⟨by decide, (C2_marker_assignment []).1 (by decide)⟩,
   ⟨by decide, ((C2_marker_assignment
      [⟨"a", "sa", Status.active, some Marker.X, 0⟩]).2.1
        ⟨"a", "sa", Status.active, some Marker.X, 0⟩
        (by decide)).1 (by decide)⟩,
   ⟨by decide, (C2_marker_assignment
      [⟨"a", "sa", Status.active, some Marker.X, 0⟩,
       ⟨"b", "sb", Status.active, some Marker.O, 1⟩]).2.2
        ⟨"a", "sa", Status.active, some Marker.X, 0⟩
        [⟨"b", "sb", Status.active, some Marker.O, 1⟩] (by decide)⟩⟩

/-- C6: `gameOver.py` with an absent or empty `loserId` returns the
400 `Missing loserId parameter` response before any store access, so
every participant record is exactly as before. -/
theorem C6_missing_loser (loserId : Option String) (now : Nat)
    (fail : String → Bool) (s : Store)
    (h : loserId = none ∨ loserId = some "") :
    gameOver_handler loserId now fail s = (s, GameOverResult.missingLoser) := by
  rcases h with rfl | rfl
  · rfl
  · simp [gameOver_handler]

/-- Witness for C6 at a concrete one-participant store and empty
`loserId`. -/
theorem C6_missing_loser_witness :
    ((some "" : Option String) = none ∨ (some "" : Option String) = some "") ∧
    gameOver_handler (some "") 5 (fun _ => false)
        [⟨"a", "sa", Status.active, some Marker.X, 0⟩] =
      ([⟨"a", "sa", Status.active, some Marker.X, 0⟩],
        GameOverResult.missingLoser) :=
  ⟨Or.inr rfl, C6_missing_loser (some "") 5 (fun _ => false)
    [⟨"a", "sa", Status.active, some Marker.X, 0⟩] (Or.inr rfl)⟩

/-- C8: admitting an identifier that already has a record fails the
conditional `put_item` (`attribute_not_exists(connectionId)`): the
handler returns the 500 `ClientError` response and the store — in
particular the existing record for that identifier — is unchanged. -/
theorem C8_duplicate_admission (cid sid : String) (now : Nat) (s : Store)
    (h : ∃ p ∈ s, p.connectionId = cid) :
    connection_handler cid sid now s = (s, ConnResult.clientError) ∧
    lookupUser cid (connection_handler cid sid now s).1 = lookupUser cid s := by
  have hany : (s.any fun p => decide (p.connectionId = cid)) = true := by
    rw [List.any_eq_true]
    rcases h with ⟨p, hp, hcid⟩
    exact ⟨p, hp, by simp [hcid]⟩
  have h1 : connection_handler cid sid now s = (s, ConnResult.clientError) := by
    unfold connection_handler
    rw [if_pos hany]
  exact ⟨h1, by rw [h1]⟩

/-- Witness for C8: readmitting `"a"` with a different session leaves the
two-record store untouched. -/
theorem C8_duplicate_admission_witness :
    (∃ p ∈ ([⟨"a", "sa", Status.active, some Marker.X, 0⟩,
        ⟨"b", "sb", Status.inactive, none, 1⟩] : Store),
      p.connectionId = "a") ∧
    connection_handler "a" "fresh" 9
        [⟨"a", "sa", Status.active, some Marker.X, 0⟩,
         ⟨"b", "sb", Status.inactive, none, 1⟩] =
      ([⟨"a", "sa", Status.active, some Marker.X, 0⟩,
        ⟨"b", "sb", Status.inactive, none, 1⟩], ConnResult.clientError) :=
  ⟨⟨(⟨"a", "sa", Status.active, some Marker.X, 0⟩ : Participant),
      by decide, rfl⟩,
   (C8_duplicate_admission "a" "fresh" 9
     [⟨"a", "sa", Status.active, some Marker.X, 0⟩,
      ⟨"b", "sb", Status.inactive, none, 1⟩]
     ⟨(⟨"a", "sa", Status.active, some Marker.X, 0⟩ : Participant),
      by decide, rfl⟩).1⟩

/-- C9: `joinQueue.py` never reads the `marker` field of its invocation
payload (the marker `connection.py` computed and forwarded): for any two
payload marker values and the same store, the handler produces the same
store and the same result, recomputing the marker from the current active
set. -/
theorem C9_payload_marker_independence (cid sid dom stg : String)
    (m1 m2 : Option Marker) (now : Nat) (s : Store) :
    joinQueue_handler ⟨cid, sid, dom, stg, m1⟩ now s =
      joinQueue_handler ⟨cid, sid, dom, stg, m2⟩ now s := rfl

/-- C3: `joinQueue.py` for an existing participant: with fewer than 2
active players the participant's record becomes active with the marker
produced by the assignment function (`joinedAt` untouched); otherwise it
stays inactive with no marker and its `joinedAt` is refreshed to the time
of the request. -/
theorem C3_joinQueue_existing (e : JoinQueueEvent) (now : Nat) {s : Store}
    {p : Participant} (hnd : NodupIds s) (hp : p ∈ s)
    (hcid : p.connectionId = e.connectionId) :
    (count_active_players s < 2 →
      ∃ m, get_marker_for_new_active_user s = Except.ok m ∧
        joinQueue_handler e now s =
          (update_user e.connectionId Status.active (some m) none s,
            JoinResult.activeWith m) ∧
        lookupUser e.connectionId (joinQueue_handler e now s).1 =
          some { p with status := Status.active, marker := some m }) ∧
    (2 ≤ count_active_players s →
      joinQueue_handler e now s =
        (update_user e.connectionId Status.inactive none (some now) s,
          JoinResult.queued) ∧
      lookupUser e.connectionId (joinQueue_handler e now s).1 =
        some { p with status := Status.inactive
                    , marker := none
                    , joinedAt := now }) := by
  have hlook : lookupUser e.connectionId s = some p := by
    rw [← hcid]
    exact lookupUser_of_mem hnd hp
  constructor
  · intro hlt
    rcases assignMarker_lt_two hlt with ⟨m, hm, _⟩
    have heq : joinQueue_handler e now s =
        (update_user e.connectionId Status.active (some m) none s,
          JoinResult.activeWith m) := by
      unfold joinQueue_handler
      rw [if_pos hlt, hm]
    refine ⟨m, hm, heq, ?_⟩
    rw [heq]
    show lookupUser e.connectionId
      (update_user e.connectionId Status.active (some m) none s) = _
    rw [lookupUser_update, hlook, Option.map_some',
      applyUserUpdate_of_eq _ _ _ hcid]
    simp
  · intro hge
    have heq : joinQueue_handler e now s =
        (update_user e.connectionId Status.inactive none (some now) s,
          JoinResult.queued) := by
      unfold joinQueue_handler
      rw [if_neg (by omega)]
    refine ⟨heq, ?_⟩
    rw [heq]
    show lookupUser e.connectionId
      (update_user e.connectionId Status.inactive none (some now) s) = _
    rw [lookupUser_update, hlook, Option.map_some',
      applyUserUpdate_of_eq _ _ _ hcid]
    simp

/-- Witness for C3, both branches: a lone inactive participant requesting
to join becomes active with marker `X`; with two active players a third
participant's request leaves it inactive, marker absent, `joinedAt`
refreshed to the request time 7. -/
theorem C3_joinQueue_existing_witness :
    (count_active_players [⟨"c", "sc", Status.inactive, none, 0⟩] < 2 ∧
      ∃ m, get_marker_for_new_active_user
          [⟨"c", "sc", Status.inactive, none, 0⟩] = Except.ok m ∧
        joinQueue_handler ⟨"c", "sc", "d", "st", none⟩ 7
            [⟨"c", "sc", Status.inactive, none, 0⟩] =
          (update_user "c" Status.active (some m) none
            [⟨"c", "sc", Status.inactive, none, 0⟩], JoinResult.activeWith m) ∧
        lookupUser "c" (joinQueue_handler ⟨"c", "sc", "d", "st", none⟩ 7
            [⟨"c", "sc", Status.inactive, none, 0⟩]).1 =
          some ⟨"c", "sc", Status.active, some m, 0⟩) ∧
    (2 ≤ count_active_players
        [⟨"a", "sa", Status.active, some Marker.X, 0⟩,
         ⟨"b", "sb", Status.active, some Marker.O, 1⟩,
         ⟨"c", "sc", Status.inactive, none, 2⟩] ∧
      lookupUser "c" (joinQueue_handler ⟨"c", "sc", "d", "st", none⟩ 7
          [⟨"a", "sa", Status.active, some Marker.X, 0⟩,
           ⟨"b", "sb", Status.active, some Marker.O, 1⟩,
           ⟨"c", "sc", Status.inactive, none, 2⟩]).1 =
        some ⟨"c", "sc", Status.inactive, none, 7⟩) :=
  ⟨⟨by decide, (@C3_joinQueue_existing ⟨"c", "sc", "d", "st", none⟩ 7
      [⟨"c", "sc", Status.inactive, none, 0⟩]
      ⟨"c", "sc", Status.inactive, none, 0⟩
      (by decide) (by decide) rfl).1 (by decide)⟩,
   ⟨by decide, ((@C3_joinQueue_existing ⟨"c", "sc", "d", "st", none⟩ 7
      [⟨"a", "sa", Status.active, some Marker.X, 0⟩,
       ⟨"b", "sb", Status.active, some Marker.O, 1⟩,
       ⟨"c", "sc", Status.inactive, none, 2⟩]
      ⟨"c", "sc", Status.inactive, none, 2⟩
      (by decide) (by decide) rfl).2 (by decide)).2⟩⟩

/-- C7: `disconnect.py` for a non-active participant: an unknown
identifier is a no-op success (200, store untouched), and departing an
inactive participant deletes exactly that record, runs no promotion pass,
and leaves every remaining record — in particular the active set and all
markers — unchanged. -/
theorem C7_depart_nonactive (cid : String)
    (s : Store) (hnd : NodupIds s) :
    (lookupUser cid s = none →
      disconnect_handler cid s = (s, DisconnectResult.noRecord)) ∧
    (∀ u, lookupUser cid s = some u → u.status = Status.inactive →
      disconnect_handler cid s =
        (deleteUser cid s, DisconnectResult.disconnected) ∧
      activePlayers (deleteUser cid s) = activePlayers s) := by
  constructor
  · intro h
    unfold disconnect_handler
    rw [h]
  · intro u hu hstat
    have hcid : u.connectionId = cid := by
      have := List.find?_some hu
      simpa using this
    have humem : u ∈ s := List.mem_of_find?_eq_some hu
    constructor
    · simp [disconnect_handler, hu, hstat]
    · unfold activePlayers deleteUser
      rw [List.filter_filter]
      refine List.filter_congr ?_
      intro q hq
      by_cases hact : q.status = Status.active
      · have hqne : q.connectionId ≠ cid := by
          intro hqcid
          have hqu : q = u := List.inj_on_of_nodup_map hnd hq humem
            (by rw [hqcid, hcid])
          rw [hqu, hstat] at hact
          cases hact
        simp [hact, hqne]
      · simp [hact]

/-- Witness for C7, both branches: departing unknown `"z"` is a no-op
success; departing inactive `"b"` deletes only `"b"` and leaves the
active player `"a"` (marker `X`) untouched. -/
theorem C7_depart_nonactive_witness :
    (lookupUser "z" [⟨"a", "sa", Status.active, some Marker.X, 0⟩,
        ⟨"b", "sb", Status.inactive, none, 1⟩] = none ∧
      disconnect_handler "z"
          [⟨"a", "sa", Status.active, some Marker.X, 0⟩,
           ⟨"b", "sb", Status.inactive, none, 1⟩] =
        ([⟨"a", "sa", Status.active, some Marker.X, 0⟩,
          ⟨"b", "sb", Status.inactive, none, 1⟩], DisconnectResult.noRecord)) ∧
    (disconnect_handler "b"
        [⟨"a", "sa", Status.active, some Marker.X, 0⟩,
         ⟨"b", "sb", Status.inactive, none, 1⟩] =
      (deleteUser "b" [⟨"a", "sa", Status.active, some Marker.X, 0⟩,
        ⟨"b", "sb", Status.inactive, none, 1⟩],
        DisconnectResult.disconnected) ∧
      activePlayers (deleteUser "b"
        [⟨"a", "sa", Status.active, some Marker.X, 0⟩,
         ⟨"b", "sb", Status.inactive, none, 1⟩]) =
        activePlayers [⟨"a", "sa", Status.active, some Marker.X, 0⟩,
          ⟨"b", "sb", Status.inactive, none, 1⟩]) :=
  ⟨⟨by decide, (C7_depart_nonactive "z" _ (by decide)).1
      (by decide)⟩,
   (C7_depart_nonactive "b"
      [⟨"a", "sa", Status.active, some Marker.X, 0⟩,
       ⟨"b", "sb", Status.inactive, none, 1⟩] (by decide)).2
     ⟨"b", "sb", Status.inactive, none, 1⟩ (by decide) rfl⟩

/-- C10 counterexample: the scan order `[parseable-to-minimum,
unparseable]` is already sorted (`datetime.fromisoformat` maps the
parseable string `"0001-01-01T00:00:00"` to `datetime.min`, the very
value unparseable items default to, encoded `0`), and Python's `sorted`
is stable, so the unparseable record stays *after* a parseable one —
refuting "ordered before all records with parseable timestamps". -/
theorem C10_unparseable_after_parseable :
    get_live_queue_data [⟨"p", some 0⟩, ⟨"u", none⟩] =
      [⟨"p", some 0⟩, ⟨"u", none⟩] ∧
    (⟨"p", (some 0 : Option Nat)⟩ : QueueItem).joinedAt.isSome = true ∧
    (⟨"u", (none : Option Nat)⟩ : QueueItem).joinedAt = none := by
  decide

/-- C10 (amended): the snapshot contains every scanned record (it is a
permutation of the scan), sorted ascending by the parsed `joinedAt` key
where an absent/empty/unparseable `joinedAt` counts as the earliest
possible time (`datetime.min`, encoded `0`); consequently every record
placed before an unparseable one also carries the minimal key — an
unparseable record precedes all records with strictly later parseable
timestamps, while records parsing exactly to the minimal time tie with it
and keep scan order. -/
theorem C10_live_queue_snapshot (items : List QueueItem) :
    List.Perm (get_live_queue_data items) items ∧
    (get_live_queue_data items).Sorted liveQueueLe ∧
    (∀ l1 x l2, get_live_queue_data items = l1 ++ x :: l2 →
      x.joinedAt = none → ∀ p ∈ l1, parse_joined_at p = 0) := by
  refine ⟨List.perm_insertionSort liveQueueLe items,
    List.sorted_insertionSort liveQueueLe items, ?_⟩
  intro l1 x l2 heq hx p hp
  have hsorted : (get_live_queue_data items).Sorted liveQueueLe :=
    List.sorted_insertionSort liveQueueLe items
  rw [heq] at hsorted
  have hrel : liveQueueLe p x :=
    (List.pairwise_append.mp hsorted).2.2 p hp x (List.mem_cons_self x l2)
  unfold liveQueueLe at hrel
  have hx0 : parse_joined_at x = 0 := by
    unfold parse_joined_at
    rw [hx]
    rfl
  rw [hx0] at hrel
  exact Nat.le_zero.mp hrel

/-- Witness for C10 (amended): sorting a scan with one late parseable
record and two unparseable ones puts the unparseable ones first, and the
theorem yields that the record preceding the second unparseable one has
the minimal key. -/
theorem C10_live_queue_snapshot_witness :
    get_live_queue_data [⟨"p", some 5⟩, ⟨"u1", none⟩, ⟨"u2", none⟩] =
      [⟨"u1", none⟩] ++ ⟨"u2", (none : Option Nat)⟩ :: [⟨"p", some 5⟩] ∧
    parse_joined_at ⟨"u1", (none : Option Nat)⟩ = 0 :=
  ⟨by decide,
   (C10_live_queue_snapshot [⟨"p", some 5⟩, ⟨"u1", none⟩, ⟨"u2", none⟩]).2.2
     [⟨"u1", none⟩] ⟨"u2", none⟩ [⟨"p", some 5⟩] (by decide) rfl
     ⟨"u1", none⟩ (by decide)⟩

/-! ## Helper lemmas for the promotion pass (`fill_active_slots`) -/

theorem nodupIds_inj {s : Store} (hnd : NodupIds s) {p q : Participant}
    (hp : p ∈ s) (hq : q ∈ s) (h : p.connectionId = q.connectionId) : p = q :=
  List.inj_on_of_nodup_map hnd hp hq h

theorem NodupIds_queryByStatusAsc (st : Status) {s : Store} (hnd : NodupIds s) :
    NodupIds (queryByStatusAsc st s) :=
  (((queryByStatusAsc_perm st s).map Participant.connectionId).nodup_iff).mpr
    (NodupIds_filter _ hnd)

theorem no_active_of_count_zero {s : Store} (h : count_active_players s = 0) :
    ∀ p ∈ s, ¬p.status = Status.active := by
  intro p hp hact
  have hnil : activePlayers s = [] := by
    rw [← List.length_eq_zero]
    exact h
  have : p ∈ activePlayers s := mem_activePlayers.mpr ⟨hp, hact⟩
  rw [hnil] at this
  cases this

theorem get_marker_of_count_zero {s : Store}
    (h : count_active_players s = 0) :
    get_marker_for_new_active_user s = Except.ok Marker.X := by
  have hnil : queryByStatusAsc Status.active s = [] := by
    rw [← List.length_eq_zero, length_queryActive, h]
  unfold get_marker_for_new_active_user
  rw [hnil]

theorem get_marker_of_one_active {s : Store} {r : Participant}
    (h : activePlayers s = [r]) :
    get_marker_for_new_active_user s = Except.ok (flipMarker r.marker) := by
  have hq : queryByStatusAsc Status.active s = [r] :=
    List.perm_singleton.mp (h ▸ queryActive_perm_activePlayers s)
  unfold get_marker_for_new_active_user
  rw [hq]

theorem activePlayers_deleteUser (cid : String) (s : Store) :
    activePlayers (deleteUser cid s) =
      (activePlayers s).filter fun p => !decide (p.connectionId = cid) := by
  unfold activePlayers deleteUser
  rw [List.filter_filter, List.filter_filter]
  exact List.filter_congr fun p _ => Bool.and_comm _ _

theorem activePlayers_requeue (cid : String) (mk : Option Marker)
    (ts : Option Nat) (s : Store) :
    activePlayers (update_user cid Status.inactive mk ts s) =
      (activePlayers s).filter fun p => !decide (p.connectionId = cid) := by
  rw [activePlayers_update_inactive]
  unfold activePlayers
  rw [List.filter_filter]

/-- Dropping one of exactly two active players (by key) leaves the other,
together with the membership facts used downstream. -/
theorem drop_one_of_two_active {s : Store} (hnd : NodupIds s)
    {d r : Participant}
    (hact : activePlayers s = [d, r] ∨ activePlayers s = [r, d]) :
    ((activePlayers s).filter fun p =>
        !decide (p.connectionId = d.connectionId)) = [r] ∧
      d ∈ s ∧ d.status = Status.active ∧ r ∈ s ∧ r.status = Status.active ∧
      d.connectionId ≠ r.connectionId := by
  have hndf : NodupIds (activePlayers s) := NodupIds_filter _ hnd
  rcases hact with h | h
  · have hmd : d ∈ activePlayers s := by rw [h]; simp
    have hmr : r ∈ activePlayers s := by rw [h]; simp
    rw [h] at hndf
    have hne : d.connectionId ≠ r.connectionId := by
      have h1 := (List.nodup_cons.mp hndf).1
      intro hcontra
      exact h1 (by simp [hcontra])
    rw [mem_activePlayers] at hmd hmr
    refine ⟨?_, hmd.1, hmd.2, hmr.1, hmr.2, hne⟩
    rw [h]
    rw [List.filter_cons_of_neg (by simp), List.filter_cons_of_pos (by
      simp only [Bool.not_eq_true', decide_eq_false_iff_not]
      exact fun hcc => hne hcc.symm), List.filter_nil]
  · have hmd : d ∈ activePlayers s := by rw [h]; simp
    have hmr : r ∈ activePlayers s := by rw [h]; simp
    rw [h] at hndf
    have hne : r.connectionId ≠ d.connectionId := by
      have h1 := (List.nodup_cons.mp hndf).1
      intro hcontra
      exact h1 (by simp [hcontra])
    rw [mem_activePlayers] at hmd hmr
    refine ⟨?_, hmd.1, hmd.2, hmr.1, hmr.2, Ne.symm hne⟩
    rw [h]
    rw [List.filter_cons_of_pos (by
      simp only [Bool.not_eq_true', decide_eq_false_iff_not]
      exact hne), List.filter_cons_of_neg (by simp), List.filter_nil]

/-- With no active player, setting one member active makes it the single
active player. -/
theorem activePlayers_promote_from_zero {s : Store} (hnd : NodupIds s)
    {w : Participant} (hw : w ∈ s) (h0 : count_active_players s = 0)
    (mk : Option Marker) (ts : Option Nat) :
    activePlayers (update_user w.connectionId Status.active mk ts s) =
      [applyUserUpdate w.connectionId Status.active mk ts w] := by
  rw [activePlayers_update_active]
  have hpred : s.filter (fun p => decide (p.connectionId = w.connectionId) ||
      decide (p.status = Status.active)) =
      s.filter fun p => decide (p.connectionId = w.connectionId) := by
    refine List.filter_congr ?_
    intro p hp
    have := no_active_of_count_zero h0 p hp
    simp [this]
  rw [hpred, filter_cid_of_mem hnd hw]
  rfl

theorem fill_active_slots_full (fail : String → Bool) {s : Store}
    (h : 2 ≤ count_active_players s) : fill_active_slots fail s = s := by
  unfold fill_active_slots
  rw [if_pos h]

theorem promote_user_of_zero {s : Store} (cid : String)
    (h0 : count_active_players s = 0) :
    promote_user cid s =
      update_user cid Status.active (some Marker.X) none s := by
  unfold promote_user
  rw [get_marker_of_count_zero h0]

theorem promote_user_of_one {s : Store} (cid : String) {r : Participant}
    (h : activePlayers s = [r]) :
    promote_user cid s =
      update_user cid Status.active (some (flipMarker r.marker)) none s := by
  unfold promote_user
  rw [get_marker_of_one_active h]

theorem fill_active_slots_one_needed (fail : String → Bool) {s : Store}
    (hc : count_active_players s = 1) {h : Participant}
    {tl : List Participant}
    (hq : queryByStatusAsc Status.inactive s = h :: tl) :
    fill_active_slots fail s =
      if fail h.connectionId then s else promote_user h.connectionId s := by
  simp only [fill_active_slots, hc, hq]
  norm_num

theorem fill_active_slots_two_needed (fail : String → Bool) {s : Store}
    (hc : count_active_players s = 0) {w1 w2 : Participant}
    {rest : List Participant}
    (hq : queryByStatusAsc Status.inactive s = w1 :: w2 :: rest) :
    fill_active_slots fail s =
      [w1, w2].foldl
        (fun st u =>
          if fail u.connectionId then st else promote_user u.connectionId st)
        s := by
  simp only [fill_active_slots, hc, hq]
  norm_num

/-- C4 (code bug in `disconnect.py`): the promotion pass the claim
describes is real for the `gameOver.py` copy of `fill_active_slots` —
first conjunct: on the store left by the departure of the active
`X`-holder, it promotes the earliest-joined waiter `"w"` to active with
exactly the freed marker `X` (the complement of the remaining player's
`O`).  But `disconnect.py`'s own textually identical copy never imports
`Key`, so `OnDepart` of an active participant with a free seat deletes
the record and then raises `NameError` at the inactive-users query,
which `except ClientError` does not catch — second and third conjuncts:
the handler returns the error outcome and the waiter `"w"` is still
inactive with no marker, refuting the claimed post-departure
promotion. -/
theorem C4_depart_promotion_crashes :
    lookupUser "w" (fill_active_slots (fun _ => false)
        [⟨"r", "sr", Status.active, some Marker.O, 1⟩,
         ⟨"w", "sw", Status.inactive, none, 2⟩]) =
      some ⟨"w", "sw", Status.active, some Marker.X, 2⟩ ∧
    disconnect_handler "d"
        [⟨"d", "sd", Status.active, some Marker.X, 0⟩,
         ⟨"r", "sr", Status.active, some Marker.O, 1⟩,
         ⟨"w", "sw", Status.inactive, none, 2⟩] =
      ([⟨"r", "sr", Status.active, some Marker.O, 1⟩,
        ⟨"w", "sw", Status.inactive, none, 2⟩],
       DisconnectResult.uncaughtError) ∧
    lookupUser "w" (disconnect_handler "d"
        [⟨"d", "sd", Status.active, some Marker.X, 0⟩,
         ⟨"r", "sr", Status.active, some Marker.O, 1⟩,
         ⟨"w", "sw", Status.inactive, none, 2⟩]).1 =
      some ⟨"w", "sw", Status.inactive, none, 2⟩ := by
  decide

/-- C5: `gameOver.py` with a valid loser from a full game (two active
players, at least one participant waiting, a clock past every stored
`joinedAt`): the handler reports success, the loser's record becomes
inactive with its marker cleared and `joinedAt` set to the strictly
larger current time (the back of the line), and the active set is
replenished back to exactly 2. -/
theorem C5_game_result (s : Store) (l r : Participant) (now : Nat)
    (hnd : NodupIds s)
    (hact : activePlayers s = [l, r] ∨ activePlayers s = [r, l])
    (hwait : ∃ v ∈ s, v.status = Status.inactive)
    (hclock : ∀ p ∈ s, p.joinedAt < now)
    (hlid : l.connectionId ≠ "") :
    (gameOver_handler (some l.connectionId) now (fun _ => false) s).2 =
      GameOverResult.processed ∧
    lookupUser l.connectionId
        (gameOver_handler (some l.connectionId) now (fun _ => false) s).1 =
      some { l with status := Status.inactive, marker := none, joinedAt := now } ∧
    l.joinedAt < now ∧
    count_active_players
        (gameOver_handler (some l.connectionId) now (fun _ => false) s).1 =
      2 := by
  obtain ⟨hfilter, hls, hlact, hrs, hract, hlr⟩ :=
    drop_one_of_two_active hnd hact
  have hhandler : gameOver_handler (some l.connectionId) now
      (fun _ => false) s =
      (fill_active_slots (fun _ => false)
        (update_user l.connectionId Status.inactive none (some now) s),
       GameOverResult.processed) := by
    simp only [gameOver_handler]
    rw [if_neg hlid]
  have hA1 : activePlayers
      (update_user l.connectionId Status.inactive none (some now) s) =
      [r] := by
    rw [activePlayers_requeue]
    exact hfilter
  have hc1 : count_active_players
      (update_user l.connectionId Status.inactive none (some now) s) = 1 := by
    unfold count_active_players
    rw [hA1]
    rfl
  have hnd1 : NodupIds
      (update_user l.connectionId Status.inactive none (some now) s) :=
    NodupIds_update _ _ _ _ hnd
  have hlapp : applyUserUpdate l.connectionId Status.inactive none
      (some now) l =
      { l with status := Status.inactive, marker := none, joinedAt := now } := by
    rw [applyUserUpdate_of_eq _ _ _ rfl]
    rfl
  have hlmem1 :
      ({ l with status := Status.inactive, marker := none, joinedAt := now }
        : Participant) ∈
      update_user l.connectionId Status.inactive none (some now) s :=
    List.mem_map.mpr ⟨l, hls, hlapp⟩
  have hlookl1 : lookupUser l.connectionId
      (update_user l.connectionId Status.inactive none (some now) s) =
      some { l with status := Status.inactive, marker := none, joinedAt := now } := by
    rw [lookupUser_update, lookupUser_of_mem hnd hls, Option.map_some', hlapp]
  obtain ⟨v, hv, hvin⟩ := hwait
  have hvl : v.connectionId ≠ l.connectionId := by
    intro hc
    have : v = l := nodupIds_inj hnd hv hls hc
    rw [this, hlact] at hvin
    cases hvin
  have hv1 : v ∈ update_user l.connectionId Status.inactive none (some now)
      s := List.mem_map.mpr ⟨v, hv, applyUserUpdate_of_ne _ _ _ hvl⟩
  have hvq : v ∈ queryByStatusAsc Status.inactive
      (update_user l.connectionId Status.inactive none (some now) s) :=
    mem_queryByStatusAsc.mpr ⟨hv1, hvin⟩
  rcases hqe : queryByStatusAsc Status.inactive
      (update_user l.connectionId Status.inactive none (some now) s) with
    _ | ⟨h, tl⟩
  · rw [hqe] at hvq
    cases hvq
  · have hh := mem_queryByStatusAsc.mp (by
      rw [hqe]
      exact List.mem_cons_self h tl)
    have hsorted := sorted_queryByStatusAsc Status.inactive
      (update_user l.connectionId Status.inactive none (some now) s)
    rw [hqe] at hsorted hvq
    have hhlt : h.joinedAt < now := by
      rcases List.mem_cons.mp hvq with rfl | hmem
      · exact hclock v hv
      · exact Nat.lt_of_le_of_lt ((List.pairwise_cons.mp hsorted).1 v hmem)
          (hclock v hv)
    have hhl : h.connectionId ≠ l.connectionId := by
      intro hc
      have heq : h = { l with status := Status.inactive, marker := none, joinedAt := now } :=
        nodupIds_inj hnd1 hh.1 hlmem1 hc
      have : h.joinedAt = now := by rw [heq]
      omega
    have hfill : fill_active_slots (fun _ => false)
        (update_user l.connectionId Status.inactive none (some now) s) =
        update_user h.connectionId Status.active (some (flipMarker r.marker))
          none (update_user l.connectionId Status.inactive none (some now)
            s) := by
      rw [fill_active_slots_one_needed (fun _ => false) hc1 hqe]
      show promote_user h.connectionId _ = _
      rw [promote_user_of_one _ hA1]
    rw [hfill] at hhandler
    have hlookfinal : lookupUser l.connectionId
        (update_user h.connectionId Status.active (some (flipMarker r.marker))
          none (update_user l.connectionId Status.inactive none (some now)
            s)) =
        some { l with status := Status.inactive, marker := none, joinedAt := now } := by
      have hne' :
          ({ l with status := Status.inactive, marker := none, joinedAt := now } : Participant).connectionId ≠
            h.connectionId := Ne.symm hhl
      rw [lookupUser_update, hlookl1, Option.map_some',
        applyUserUpdate_of_ne _ _ _ hne']
    have hcountfinal : count_active_players
        (update_user h.connectionId Status.active (some (flipMarker r.marker))
          none (update_user l.connectionId Status.inactive none (some now)
            s)) = 2 := by
      unfold count_active_players
      rw [activePlayers_update_active, List.length_map,
        ← List.countP_eq_length_filter]
      have hie := countP_or_add_countP_and
        (fun p => decide (p.connectionId = h.connectionId))
        (fun p => decide (p.status = Status.active))
        (update_user l.connectionId Status.inactive none (some now) s)
      have h1 : (update_user l.connectionId Status.inactive none (some now)
          s).countP (fun p => decide (p.connectionId = h.connectionId)) =
          1 := by
        rw [List.countP_eq_length_filter, filter_cid_of_mem hnd1 hh.1]
        rfl
      have h2 : (update_user l.connectionId Status.inactive none (some now)
          s).countP (fun p => decide (p.status = Status.active)) = 1 := by
        rw [List.countP_eq_length_filter]
        show (activePlayers _).length = 1
        rw [hA1]
        rfl
      have h0 : (update_user l.connectionId Status.inactive none (some now)
          s).countP (fun p => decide (p.connectionId = h.connectionId) &&
            decide (p.status = Status.active)) = 0 := by
        rw [List.countP_eq_zero]
        intro p hp hb
        simp only [Bool.and_eq_true, decide_eq_true_eq] at hb
        have : p = h := nodupIds_inj hnd1 hp hh.1 hb.1
        rw [this] at hb
        rw [hh.2] at hb
        cases hb.2
      omega
    rw [hhandler]
    exact ⟨rfl, hlookfinal, hclock l hls, hcountfinal⟩

/-- Witness for C5: loser `"l"` (marker `X`) of a full game with waiter
`"v"` is requeued at time 5 with its marker cleared, and the active set is
back to 2. -/
theorem C5_game_result_witness :
    (gameOver_handler (some "l") 5 (fun _ => false)
        [⟨"l", "sl", Status.active, some Marker.X, 0⟩,
         ⟨"r", "sr", Status.active, some Marker.O, 1⟩,
         ⟨"v", "sv", Status.inactive, none, 2⟩]).2 =
      GameOverResult.processed ∧
    lookupUser "l" (gameOver_handler (some "l") 5 (fun _ => false)
        [⟨"l", "sl", Status.active, some Marker.X, 0⟩,
         ⟨"r", "sr", Status.active, some Marker.O, 1⟩,
         ⟨"v", "sv", Status.inactive, none, 2⟩]).1 =
      some ⟨"l", "sl", Status.inactive, none, 5⟩ ∧
    (0 : Nat) < 5 ∧
    count_active_players (gameOver_handler (some "l") 5 (fun _ => false)
        [⟨"l", "sl", Status.active, some Marker.X, 0⟩,
         ⟨"r", "sr", Status.active, some Marker.O, 1⟩,
         ⟨"v", "sv", Status.inactive, none, 2⟩]).1 = 2 :=
  C5_game_result
    [⟨"l", "sl", Status.active, some Marker.X, 0⟩,
     ⟨"r", "sr", Status.active, some Marker.O, 1⟩,
     ⟨"v", "sv", Status.inactive, none, 2⟩]
    ⟨"l", "sl", Status.active, some Marker.X, 0⟩
    ⟨"r", "sr", Status.active, some Marker.O, 1⟩ 5
    (by decide) (Or.inl (by decide))
    ⟨⟨"v", "sv", Status.inactive, none, 2⟩, by decide, rfl⟩
    (by decide) (by decide)

end TTT
